import Mathlib

/-!
Verification of the heuristic email-parsing engine of the AppClub repository.

The repository contains two copies of the parsing logic:
* `gmail_parser.py` — `is_application_email`, `clean_company_name`, `extract_fields`
  (the richer copy; note that several of its regexes are raw strings containing
  doubled backslashes, so for example `\\s` in the compiled pattern matches a
  literal backslash followed by a run of `s` characters, not whitespace);
* `backend/app.py` — `parse_email_text` with single-backslash regexes.

Python's `re` engine is embedded by a small backtracking matcher over a pattern
syntax tree (`Re`) whose semantics follow Python's leftmost-first search:
positions are tried left to right, alternatives in written order, greedy
repetition longest-first, lazy repetition shortest-first.  All repetition
operators in the patterns of this repository apply to single-character items,
which the embedding exploits.  Case insensitivity (`re.I`) is embedded by
lowercasing during comparison while captures keep the original characters.
The job-id regexes are embedded as dedicated first-order matchers with the
same semantics, which keeps the capture structure visible to proofs.

Strings are modelled at the `List Char` level (ASCII-faithful for case
folding and whitespace).  Python `None`-or-`str` values are `Option String`;
Python truthiness of such a value is `truthyOpt`.  The `TypeError` raised by
`re.search(None)` is modelled with `Except PyErr`.
-/

/-- ASCII whitespace, matching Python's `str.strip`/`str.split`/`\s` on ASCII text. -/
def pyWS (c : Char) : Bool :=
  c = ' ' || c = '\t' || c = '\n' || c = '\r' || c = '\x0b' || c = '\x0c'

/-- Remove the leading whitespace run (left part of Python `str.strip`). -/
def trimLeft (l : List Char) : List Char := l.dropWhile pyWS

/-- Remove the trailing whitespace run (right part of Python `str.strip`). -/
def trimRight : List Char → List Char
  | [] => []
  | c :: cs =>
    let r := trimRight cs
    if r.isEmpty then (if pyWS c then [] else [c]) else c :: r

/-- Python `str.strip()` on the character list. -/
def trimList (l : List Char) : List Char := trimRight (trimLeft l)

/-- Python `str.strip()` on strings. -/
def pyStripS (s : String) : String := String.mk (trimList s.data)

/-- Python `str.lower()` (ASCII case folding). -/
def lowerStr (s : String) : String := String.mk (s.data.map Char.toLower)

/-- Truthiness of a Python string value (`""` is falsy). -/
def pyTruthyStr (s : String) : Bool := !s.data.isEmpty

/-- Truthiness of a Python `None`-or-`str` value. -/
def truthyOpt : Option String → Bool
  | none => false
  | some s => !s.data.isEmpty

/-- Case-insensitive prefix test: does pattern `p` (already lowercase) match
the beginning of `s`? -/
def prefixCI : List Char → List Char → Bool
  | [], _ => true
  | c :: cs, d :: ds => (d.toLower = c) && prefixCI cs ds
  | _ :: _, [] => false

/-- Length of the maximal run of characters satisfying `p` starting at `i`. -/
def runLen (s : List Char) (i : Nat) (p : Char → Bool) : Nat :=
  ((s.drop i).takeWhile p).length

/-- Try `k` at positions `i+n, i+n-1, ..., i` (greedy repetition order). -/
def tryDown {α : Type} (k : Nat → Option α) (i : Nat) : Nat → Option α
  | 0 => k i
  | d + 1 => (k (i + d + 1)).orElse (fun _ => tryDown k i d)

/-- Try `k` at positions `i, i+1, ..., i+n` (lazy repetition order). -/
def tryUp {α : Type} (k : Nat → Option α) (i : Nat) : Nat → Option α
  | 0 => k i
  | d + 1 => (k i).orElse (fun _ => tryUp k (i + 1) d)

/-- Try `f` at positions `i, i+1, ...` for `n` attempts (regex `search` scan). -/
def scanFrom {α : Type} (f : Nat → Option α) : Nat → Nat → Option α
  | _, 0 => none
  | i, n + 1 => (f i).orElse (fun _ => scanFrom f (i + 1) n)

/-- Pattern syntax: the fragment of Python `re` used by this repository.
All repetition operators in the repository's patterns apply to
single-character items (character classes or `.`), so repetition is over a
character predicate.  Literals are stored lowercase and compared
case-insensitively (`re.I` is set on every compiled pattern). -/
inductive Re where
  | eps
  | lit (cs : List Char)
  | cls (p : Char → Bool)
  | starG (p : Char → Bool)
  | starL (p : Char → Bool)
  | alt (a b : Re)
  | seq (a b : Re)
  | grp (g : Nat) (r : Re)

/-- Greedy `+` over a character class. -/
def Re.plusG (p : Char → Bool) : Re := .seq (.cls p) (.starG p)

/-- Lazy `+?` over a character class. -/
def Re.plusL (p : Char → Bool) : Re := .seq (.cls p) (.starL p)

/-- A match: start, end, and captured group spans (group, start, end). -/
structure MRes where
  ms : Nat
  me : Nat
  caps : List (Nat × Nat × Nat)
deriving DecidableEq

/-- Backtracking matcher in continuation style; Python leftmost-first
semantics: alternatives in written order, greedy repetition longest first,
lazy repetition shortest first. -/
def mtch (s : List Char) : Re → Nat → List (Nat × Nat × Nat) →
    (Nat → List (Nat × Nat × Nat) → Option MRes) → Option MRes
  | .eps, i, c, k => k i c
  | .lit cs, i, c, k => if prefixCI cs (s.drop i) then k (i + cs.length) c else none
  | .cls p, i, c, k =>
    match s.drop i with
    | [] => none
    | d :: _ => if p d then k (i + 1) c else none
  | .starG p, i, c, k => tryDown (fun j => k j c) i (runLen s i p)
  | .starL p, i, c, k => tryUp (fun j => k j c) i (runLen s i p)
  | .alt a b, i, c, k => (mtch s a i c k).orElse (fun _ => mtch s b i c k)
  | .seq a b, i, c, k => mtch s a i c (fun j c2 => mtch s b j c2 k)
  | .grp g r, i, c, k => mtch s r i c (fun j c2 => k j ((g, i, j) :: c2))

/-- Python `re.search`: scan start positions left to right, return the first
position at which the pattern matches. -/
def reSearch (r : Re) (s : List Char) : Option MRes :=
  scanFrom (fun i => mtch s r i [] (fun j c => some ⟨i, j, c⟩)) 0 (s.length + 1)

/-- The slice `s[a:b]`. -/
def subSpan (s : List Char) (a b : Nat) : List Char := (s.drop a).take (b - a)

/-- Python `m.group(g)`: text of the captured span (original characters). -/
def mGroup (m : MRes) (g : Nat) (s : List Char) : String :=
  match m.caps.find? (fun t => t.1 == g) with
  | some t => String.mk (subSpan s t.2.1 t.2.2)
  | none => ""

/-- Helper for literal tests inside the hand-specialized job-id matchers. -/
def litCI (cs : String) (s : List Char) (i : Nat) : Bool :=
  prefixCI (cs.data.map Char.toLower) (s.drop i)

/-- Shared tail of both job-id regexes: `[sep]*#?([cap]+)` with greedy
give-back on the separator run, then an optional `#`, then a non-empty
capture run.  Returns the captured characters. -/
def capAt (p : Char → Bool) (s : List Char) (k : Nat) : Option (List Char) :=
  if ((s.drop k).takeWhile p).isEmpty then none else some ((s.drop k).takeWhile p)

/-- The `#?` step followed by the capture: if a `#` is present it is consumed
greedily (the fall-back without consuming it cannot succeed because `#` is in
neither capture class). -/
def hashCapAt (p : Char → Bool) (s : List Char) (k : Nat) : Option (List Char) :=
  match s.drop k with
  | '#' :: _ => capAt p s (k + 1)
  | _ => capAt p s k

/-- The tail `[sep]*#?([cap]+)` from position `j`: greedy separator run with give-back. -/
def sepRest (sep cap : Char → Bool) (s : List Char) (j : Nat) : Option (List Char) :=
  tryDown (fun k => hashCapAt cap s k) j (runLen s j sep)

/-- Separator class of the `gmail_parser.py` job-id regex: the raw string
`[\\s:]` denotes the character class `{'\', 's', ':'}` (case-insensitive). -/
def gSep (c : Char) : Bool := c = '\\' || c.toLower = 's' || c = ':'

/-- Capture class of the `gmail_parser.py` job-id regex: `[A-Za-z0-9\\-\\_/]`,
in which `\\-\\` parses as the one-character range backslash–backslash, so the
class is alphanumerics plus `'\'`, `'_'`, `'/'` (no hyphen). -/
def gCap (c : Char) : Bool :=
  ('A' ≤ c && c ≤ 'Z') || ('a' ≤ c && c ≤ 'z') || ('0' ≤ c && c ≤ '9') ||
    c = '\\' || c = '_' || c = '/'

/-- Separator class of the `backend/app.py` job-id regex: `[\s:]`. -/
def bSep (c : Char) : Bool := pyWS c || c = ':'

/-- Capture class of the `backend/app.py` job-id regex: `[A-Za-z0-9\-\_/]`. -/
def bCap (c : Char) : Bool :=
  ('A' ≤ c && c ≤ 'Z') || ('a' ≤ c && c ≤ 'z') || ('0' ≤ c && c ≤ '9') ||
    c = '-' || c = '_' || c = '/'

/-- Run of literal `s`/`S` characters (`s*` under `re.I` — the doubled
backslash in the raw string turns `\\s*` into a literal backslash followed by
`s*`). -/
def sRun (s : List Char) (j : Nat) : Nat := runLen s j (fun c => c.toLower = 's')

/-- Whitespace run (`\s*` in the backend regex). -/
def wsRun (s : List Char) (j : Nat) : Nat := runLen s j pyWS

/-- One attempt of the `gmail_parser.py` job-id regex
`(?:Req(?:\\.|uisition)?|Requisition|Job\\s*ID|Req#|Requisition\\s*ID|Job\\s*Req)[\\s:]*#?([A-Za-z0-9\\-\\_/]+)`
at position `i`, with the doubled-backslash raw-string semantics: `\\.` is a
literal backslash followed by any non-newline character, `\\s*` is a literal
backslash followed by a run of `s`.  Alternatives are tried in written order
with full backtracking. -/
def jobIdAttemptG (s : List Char) (i : Nat) : Option (List Char) :=
  (if litCI "req" s i then
    (match s.drop (i + 3) with
      | '\\' :: d :: _ => if d = '\n' then none else sepRest gSep gCap s (i + 5)
      | _ => none).orElse (fun _ =>
    (if litCI "uisition" s (i + 3) then sepRest gSep gCap s (i + 11) else none).orElse (fun _ =>
      sepRest gSep gCap s (i + 3)))
   else none).orElse (fun _ =>
  (if litCI "requisition" s i then sepRest gSep gCap s (i + 11) else none).orElse (fun _ =>
  (if litCI "job" s i then
    (match s.drop (i + 3) with
      | '\\' :: _ =>
        if litCI "id" s (i + 4 + sRun s (i + 4)) then
          sepRest gSep gCap s (i + 4 + sRun s (i + 4) + 2)
        else none
      | _ => none)
   else none).orElse (fun _ =>
  (if litCI "req#" s i then sepRest gSep gCap s (i + 4) else none).orElse (fun _ =>
  (if litCI "requisition" s i then
    (match s.drop (i + 11) with
      | '\\' :: _ =>
        if litCI "id" s (i + 12 + sRun s (i + 12)) then
          sepRest gSep gCap s (i + 12 + sRun s (i + 12) + 2)
        else none
      | _ => none)
   else none).orElse (fun _ =>
  (if litCI "job" s i then
    (match s.drop (i + 3) with
      | '\\' :: _ =>
        if litCI "req" s (i + 4 + sRun s (i + 4)) then
          sepRest gSep gCap s (i + 4 + sRun s (i + 4) + 3)
        else none
      | _ => none)
   else none))))))

/-- Search with the `job_id_regex` of `gmail_parser.py`, returning the group-1 capture. -/
def jobIdSearchG (s : List Char) : Option (List Char) :=
  scanFrom (fun i => jobIdAttemptG s i) 0 (s.length + 1)

/-- One attempt of the `backend/app.py` job-id regex
`(?:Req(?:\.|uisition)?|Requisition|Job\s*ID|Req#|Requisition\s*ID|Job\s*Req)[\s:]*#?([A-Za-z0-9\-\_/]+)`
at position `i` (single-backslash semantics: `\.` a literal dot, `\s*` a
whitespace run). -/
def jobIdAttemptB (s : List Char) (i : Nat) : Option (List Char) :=
  (if litCI "req" s i then
    (if litCI "." s (i + 3) then sepRest bSep bCap s (i + 4) else none).orElse (fun _ =>
    (if litCI "uisition" s (i + 3) then sepRest bSep bCap s (i + 11) else none).orElse (fun _ =>
      sepRest bSep bCap s (i + 3)))
   else none).orElse (fun _ =>
  (if litCI "requisition" s i then sepRest bSep bCap s (i + 11) else none).orElse (fun _ =>
  (if litCI "job" s i then
    (if litCI "id" s (i + 3 + wsRun s (i + 3)) then
       sepRest bSep bCap s (i + 3 + wsRun s (i + 3) + 2)
     else none)
   else none).orElse (fun _ =>
  (if litCI "req#" s i then sepRest bSep bCap s (i + 4) else none).orElse (fun _ =>
  (if litCI "requisition" s i then
    (if litCI "id" s (i + 11 + wsRun s (i + 11)) then
       sepRest bSep bCap s (i + 11 + wsRun s (i + 11) + 2)
     else none)
   else none).orElse (fun _ =>
  (if litCI "job" s i then
    (if litCI "req" s (i + 3 + wsRun s (i + 3)) then
       sepRest bSep bCap s (i + 3 + wsRun s (i + 3) + 3)
     else none)
   else none))))))

/-- Search with the `job_id_regex` of `backend/app.py`, returning the group-1 capture. -/
def jobIdSearchB (s : List Char) : Option (List Char) :=
  scanFrom (fun i => jobIdAttemptB s i) 0 (s.length + 1)

/-- Lowercase literal node (all patterns are compiled with `re.I`). -/
def strL (s : String) : Re := .lit (s.data.map Char.toLower)

/-- The `.` class without `re.DOTALL`: any character except a newline. -/
def anyNoNL (c : Char) : Bool := c != '\n'

/-- The `.` class under `re.DOTALL`: any character. -/
def anyDotAll (_ : Char) : Bool := true

/-- The `[^\.!,\n\r]` class of the thank-you patterns. -/
def tyBody (c : Char) : Bool :=
  !(c = '.' || c = '!' || c = ',' || c = '\n' || c = '\r')

/-- The `confirmation_regex` (both files):
`thank you for (applying|your application)|we have received your application|application received|your submission has been received|application confirmation|thank you for submitting your application`,
compiled with `re.I`. -/
def confirmationRe : Re :=
  .alt (.seq (strL "thank you for ")
             (.grp 1 (.alt (strL "applying") (strL "your application"))))
  (.alt (strL "we have received your application")
  (.alt (strL "application received")
  (.alt (strL "your submission has been received")
  (.alt (strL "application confirmation")
        (strL "thank you for submitting your application")))))

/-- The subject pattern of `gmail_parser.py`, line 128:
`(?P<title>.+?)\\s*(?:-|:|\\|)\\s*(?P<company>.+)` with `re.I`.  In the raw
string each `\\s*` is a literal backslash followed by `s*`, and the separator
group parses as the alternatives `-`, `:`, a literal backslash, or empty. -/
def subjectPatternG : Re :=
  .seq (.grp 1 (Re.plusL anyNoNL))
  (.seq (strL "\\")
  (.seq (.starG (fun c => c.toLower = 's'))
  (.seq (.alt (strL "-") (.alt (strL ":") (.alt (strL "\\") .eps)))
  (.seq (strL "\\")
  (.seq (.starG (fun c => c.toLower = 's'))
        (.grp 2 (Re.plusG anyNoNL)))))))

/-- The `subject_pattern` of `backend/app.py`, line 72:
`(?P<title>.+?)\s*(?:-|:|\|)\s*(?P<company>.+)` with `re.I`. -/
def subjectPatternB : Re :=
  .seq (.grp 1 (Re.plusL anyNoNL))
  (.seq (.starG pyWS)
  (.seq (.alt (strL "-") (.alt (strL ":") (strL "|")))
  (.seq (.starG pyWS)
        (.grp 2 (Re.plusG anyNoNL)))))

/-- Thank-you pattern 1:
`thank you for (?:applying to|your application to|submitting your application to)\s+(?P<company>[^\.!,\n\r]+)`. -/
def tyP1 : Re :=
  .seq (strL "thank you for ")
  (.seq (.alt (strL "applying to")
        (.alt (strL "your application to") (strL "submitting your application to")))
  (.seq (Re.plusG pyWS) (.grp 1 (Re.plusG tyBody))))

/-- Thank-you pattern 2: `thanks for applying to\s+(?P<company>[^\.!,\n\r]+)`. -/
def tyP2 : Re :=
  .seq (strL "thanks for applying to")
  (.seq (Re.plusG pyWS) (.grp 1 (Re.plusG tyBody)))

/-- Thank-you pattern 3:
`application received.*?(?:at|for|from)\s+(?P<company>[^\.!,\n\r]+)` (DOTALL). -/
def tyP3 : Re :=
  .seq (strL "application received")
  (.seq (.starL anyDotAll)
  (.seq (.alt (strL "at") (.alt (strL "for") (strL "from")))
  (.seq (Re.plusG pyWS) (.grp 1 (Re.plusG tyBody)))))

/-- Thank-you pattern 4:
`your application (?:at|to|for)\s+(?P<company>[^\.!,\n\r]+)(?:\s+has been received|is being reviewed)`. -/
def tyP4 : Re :=
  .seq (strL "your application ")
  (.seq (.alt (strL "at") (.alt (strL "to") (strL "for")))
  (.seq (Re.plusG pyWS)
  (.seq (.grp 1 (Re.plusG tyBody))
        (.alt (.seq (Re.plusG pyWS) (strL "has been received"))
              (strL "is being reviewed")))))

/-- Thank-you pattern 5:
`received your application.*?(?:at|for|with)\s+(?P<company>[^\.!,\n\r]+)` (DOTALL). -/
def tyP5 : Re :=
  .seq (strL "received your application")
  (.seq (.starL anyDotAll)
  (.seq (.alt (strL "at") (.alt (strL "for") (strL "with")))
  (.seq (Re.plusG pyWS) (.grp 1 (Re.plusG tyBody)))))

/-- The `thank_you_patterns` list of `extract_fields`, in source order. -/
def thankYouPatterns : List Re := [tyP1, tyP2, tyP3, tyP4, tyP5]

/-- The `Company` field pattern of `gmail_parser.py`, line 161:
`Company[:\\-]\\s*(?P<c>[^\\n\\r]+)` with `re.I`.  With the doubled
backslashes the separator class is `{':', '\', '-'}`, a literal backslash is
then required, and the capture class excludes `'\'`, `n`/`N` and `r`/`R`. -/
def companyFieldG : Re :=
  .seq (strL "company")
  (.seq (.cls (fun c => c = ':' || c = '\\' || c = '-'))
  (.seq (strL "\\")
  (.seq (.starG (fun c => c.toLower = 's'))
        (.grp 1 (Re.plusG (fun c => !(c = '\\' || c.toLower = 'n' || c.toLower = 'r')))))))

/-- The `Company` field pattern of `backend/app.py`, line 89:
`Company[:\-]\s*(?P<c>[^\n\r]+)` with `re.I`. -/
def companyFieldB : Re :=
  .seq (strL "company")
  (.seq (.cls (fun c => c = ':' || c = '-'))
  (.seq (.starG pyWS)
        (.grp 1 (Re.plusG (fun c => !(c = '\n' || c = '\r'))))))

/-- The boilerplate suffixes stripped by `clean_company_name`, in source order. -/
def boilerplatePhrases : List String :=
  [" team", " careers", " recruiting", " talent acquisition", " hr", " hiring"]

/-- Trailing-punctuation characters removed by `clean_company_name`. -/
def punctEnd (c : Char) : Bool :=
  c = '.' || c = ',' || c = ';' || c = ':' || c = '!' || c = '?'

/-- Remove the maximal run of `[.,;:!?]` characters at the end of the list. -/
def dropPunctSuffix (l : List Char) : List Char :=
  (l.reverse.dropWhile punctEnd).reverse

/-- Python `re.sub(r'[.,;:!?]+$', '', name)`: `$` matches at the end of the
string or just before one trailing newline, so the punctuation run before a
single final newline is also removed. -/
def pySubPunct (l : List Char) : List Char :=
  match l.getLast? with
  | some '\n' => dropPunctSuffix l.dropLast ++ ['\n']
  | _ => dropPunctSuffix l

/-- The suffix-stripping loop of `clean_company_name`: for each phrase in
order, if the lowercased name ends with it, cut it off (`name[:-len(phrase)]`)
and re-strip. -/
def stripPhrasesL : List String → String → String
  | [], n => n
  | p :: ps, n =>
    if p.data.isSuffixOf (lowerStr n).data then
      stripPhrasesL ps (pyStripS (String.mk (n.data.take (n.data.length - p.length))))
    else stripPhrasesL ps n

/-- The function `clean_company_name` of `gmail_parser.py`, lines 98–114.  A falsy argument
returns `None`; otherwise strip, remove trailing punctuation, strip, and run
the boilerplate-suffix loop. -/
def clean_company_name (name : String) : Option String :=
  if name = "" then none
  else
    let n1 := pyStripS name
    let n2 := pyStripS (String.mk (pySubPunct n1.data))
    some (stripPhrasesL boilerplatePhrases n2)

/-- The inner loop of company-extraction strategy 2 in `extract_fields`: for
each thank-you pattern in order, search the subject first, then the body; on
the first match return that raw company capture (the loop then breaks). -/
def tyLoop : List Re → String → String → Option String
  | [], _, _ => none
  | p :: ps, subject, body =>
    match reSearch p subject.data with
    | some m => some (mGroup m 1 subject.data)
    | none =>
      match reSearch p body.data with
      | some m => some (mGroup m 1 body.data)
      | none => tyLoop ps subject body

/-- Python `subject.split(":", 1)`. -/
def pySplit1 (s : String) : List String :=
  if s.data.contains ':' then
    [String.mk (s.data.takeWhile (fun c => c ≠ ':')),
     String.mk ((s.data.dropWhile (fun c => c ≠ ':')).drop 1)]
  else [s]

/-- Number of words of Python `str.split()` (split on whitespace runs). -/
def countWords : List Char → Bool → Nat
  | [], _ => 0
  | c :: cs, inWord =>
    if pyWS c then countWords cs false
    else (if inWord then 0 else 1) + countWords cs true

/-- Python `len(s.split())`. -/
def pyWordCount (s : String) : Nat := countWords s.data false

/-- The prefixes rejected by the subject-prefix fallback. -/
def rejectWords : List String := ["re", "fwd", "fw"]

/-- Company-extraction strategy 4 of `extract_fields` (lines 166–172): the
"special case" subject-prefix fallback, given that the subject is truthy.
Split on the first colon; if the left part has at most 4 words, clean it and
accept it only if it is truthy, longer than 2 characters and not a
reply/forward marker. -/
def subjectPrefixStage (subject : String) : Option String :=
  if pyTruthyStr subject && subject.data.contains ':' then
    let parts := pySplit1 subject
    if parts.length = 2 ∧ pyWordCount (parts.headD "") ≤ 4 then
      match clean_company_name (parts.headD "") with
      | some cand =>
        if (!cand.data.isEmpty) ∧ 2 < cand.length ∧
            ¬ rejectWords.contains (lowerStr cand) then some cand
        else none
      | none => none
    else none
  else none

/-- Result record of `extract_fields`. -/
structure ExtractResult where
  company : Option String
  title : Option String
  job_id : Option String
deriving DecidableEq

/-- The function `extract_fields` of `gmail_parser.py`, lines 116–174, for string inputs.
Job id: search the body, then the subject (`or`), strip the capture.
Company cascade: subject split, thank-you loop, `Company:` field, subject
prefix — each later strategy guarded by `if not result['company']`. -/
def extract_fields (subject body : String) : ExtractResult :=
  let jid : Option String :=
    match jobIdSearchG body.data with
    | some cap => some (pyStripS (String.mk cap))
    | none =>
      match jobIdSearchG subject.data with
      | some cap => some (pyStripS (String.mk cap))
      | none => none
  let st : Option String × Option String :=
    match reSearch subjectPatternG subject.data with
    | some m =>
      (some (pyStripS (mGroup m 1 subject.data)),
       clean_company_name (mGroup m 2 subject.data))
    | none => (none, none)
  let title := st.1
  let company := st.2
  let company :=
    if truthyOpt company then company
    else
      match tyLoop thankYouPatterns subject body with
      | some cap => clean_company_name cap
      | none => company
  let company :=
    if truthyOpt company then company
    else
      match reSearch companyFieldG body.data with
      | some m => clean_company_name (mGroup m 1 body.data)
      | none => company
  let company :=
    if truthyOpt company then company
    else
      match subjectPrefixStage subject with
      | some v => some v
      | none => company
  { company := company, title := title, job_id := jid }

/-- The function `is_application_email` of `gmail_parser.py`, lines 91–96.  The guards
`if subject and ...` / `if body and ...` short-circuit on falsy values, so
`None` or `""` never reaches `re.search`. -/
def is_application_email (subject body : Option String) : Bool :=
  (truthyOpt subject && (reSearch confirmationRe ((subject.getD "").data)).isSome) ||
  (truthyOpt body && (reSearch confirmationRe ((body.getD "").data)).isSome)

/-- Result record of `parse_email_text`. -/
structure ParseResult where
  is_application : Bool
  company : Option String
  title : Option String
  job_id : Option String
deriving DecidableEq

/-- The function `parse_email_text` of `backend/app.py`, lines 74–92: confirmation search
on subject and body, job id (body first), subject split (plain `.strip()`,
no cleaning), then the `Company:` field from the body. -/
def parse_email_text (subject body : String) : ParseResult :=
  let isApp :=
    (pyTruthyStr subject && (reSearch confirmationRe subject.data).isSome) ||
    (pyTruthyStr body && (reSearch confirmationRe body.data).isSome)
  let jid : Option String :=
    match jobIdSearchB body.data with
    | some cap => some (pyStripS (String.mk cap))
    | none =>
      match jobIdSearchB subject.data with
      | some cap => some (pyStripS (String.mk cap))
      | none => none
  let st : Option String × Option String :=
    match reSearch subjectPatternB subject.data with
    | some m =>
      (some (pyStripS (mGroup m 1 subject.data)),
       some (pyStripS (mGroup m 2 subject.data)))
    | none => (none, none)
  let title := st.1
  let company := st.2
  let company :=
    if truthyOpt company then company
    else
      match reSearch companyFieldB body.data with
      | some m => some (pyStripS (mGroup m 1 body.data))
      | none => company
  { is_application := isApp, company := company, title := title, job_id := jid }

/-- The exception raised by `re.search` on a non-string argument. -/
inductive PyErr where
  | typeError
deriving DecidableEq

/-- The function `extract_fields` for Python `None`-or-`str` arguments.  `job_id_regex.search(body)`
raises `TypeError` when `body` is `None`; strategy 1 uses `subject or ""`;
the thank-you loop calls `regex.search(subject)` on the raw subject and
raises when it is `None`; strategies 3 and 4 guard with `body or ""` and
`subject and ...`. -/
def extract_fields_py (subject body : Option String) : Except PyErr ExtractResult :=
  match body with
  | none => .error .typeError
  | some b =>
    let subj0 := subject.getD ""
    let jid : Option String :=
      match jobIdSearchG b.data with
      | some cap => some (pyStripS (String.mk cap))
      | none =>
        match jobIdSearchG subj0.data with
        | some cap => some (pyStripS (String.mk cap))
        | none => none
    let st : Option String × Option String :=
      match reSearch subjectPatternG subj0.data with
      | some m =>
        (some (pyStripS (mGroup m 1 subj0.data)),
         clean_company_name (mGroup m 2 subj0.data))
      | none => (none, none)
    let title := st.1
    let company := st.2
    let step2 : Except PyErr (Option String) :=
      if truthyOpt company then .ok company
      else
        match subject with
        | none => .error .typeError
        | some s =>
          .ok (match tyLoop thankYouPatterns s b with
               | some cap => clean_company_name cap
               | none => company)
    match step2 with
    | .error e => .error e
    | .ok company2 =>
      let company3 :=
        if truthyOpt company2 then company2
        else
          match reSearch companyFieldG b.data with
          | some m => clean_company_name (mGroup m 1 b.data)
          | none => company2
      let company4 :=
        if truthyOpt company3 then company3
        else
          match subject with
          | none => company3
          | some s =>
            match subjectPrefixStage s with
            | some v => some v
            | none => company3
      .ok { company := company4, title := title, job_id := jid }

/-- The four company-extraction strategies of `extract_fields`, each in
isolation: `none` when the strategy would not fire, otherwise the value it
would assign to `result['company']`. -/
def companyStrategy : Nat → String → String → Option String
  | 0, subject, _ =>
    (match reSearch subjectPatternG subject.data with
     | some m => clean_company_name (mGroup m 2 subject.data)
     | none => none)
  | 1, subject, body =>
    (match tyLoop thankYouPatterns subject body with
     | some cap => clean_company_name cap
     | none => none)
  | 2, _, body =>
    (match reSearch companyFieldG body.data with
     | some m => clean_company_name (mGroup m 1 body.data)
     | none => none)
  | 3, subject, _ => subjectPrefixStage subject
  | _, _, _ => none

/-- An `orElse` succeeds iff one of its arms succeeds. -/
theorem orElse_isSome {α : Type} (a : Option α) (f : Unit → Option α) :
    (a.orElse f).isSome = (a.isSome || (f ()).isSome) := by
  cases a <;> rfl

/-- Case analysis for a successful `orElse`. -/
theorem orElse_eq_some_iff {α : Type} (a : Option α) (f : Unit → Option α) (v : α) :
    a.orElse f = some v ↔ a = some v ∨ (a = none ∧ f () = some v) := by
  cases a <;> simp [Option.orElse]

/-- A successful scan comes from some scanned position. -/
theorem scanFrom_eq_some {α : Type} (f : Nat → Option α) :
    ∀ (n i : Nat) (v : α), scanFrom f i n = some v → ∃ d, d < n ∧ f (i + d) = some v := by
  intro n
  induction n with
  | zero => intro i v h; simp [scanFrom] at h
  | succ m ih =>
    intro i v h
    rw [scanFrom] at h
    rcases (orElse_eq_some_iff _ _ _).1 h with h1 | ⟨_, h1⟩
    · exact ⟨0, Nat.succ_pos m, by simpa using h1⟩
    · obtain ⟨d, hd, hf⟩ := ih (i + 1) v h1
      exact ⟨d + 1, by omega, by rw [show i + (d + 1) = i + 1 + d by omega]; exact hf⟩

/-- The scan succeeds iff some scanned position succeeds. -/
theorem scanFrom_isSome_iff {α : Type} (f : Nat → Option α) :
    ∀ (n i : Nat), (scanFrom f i n).isSome = true ↔ ∃ d, d < n ∧ (f (i + d)).isSome = true := by
  intro n
  induction n with
  | zero => intro i; simp [scanFrom]
  | succ m ih =>
    intro i
    rw [scanFrom, orElse_isSome]
    simp only [Bool.or_eq_true, ih (i + 1)]
    constructor
    · rintro (h | ⟨d, hd, h⟩)
      · exact ⟨0, Nat.succ_pos m, by simpa using h⟩
      · exact ⟨d + 1, by omega, by rw [show i + (d + 1) = i + 1 + d by omega]; exact h⟩
    · rintro ⟨d, hd, h⟩
      cases d with
      | zero => exact Or.inl (by simpa using h)
      | succ d => exact Or.inr ⟨d, by omega, by rw [show i + 1 + d = i + (d + 1) by omega]; exact h⟩

/-- A successful greedy try comes from some offset at most `n`. -/
theorem tryDown_eq_some {α : Type} (k : Nat → Option α) :
    ∀ (n i : Nat) (v : α), tryDown k i n = some v → ∃ d, d ≤ n ∧ k (i + d) = some v := by
  intro n
  induction n with
  | zero => intro i v h; exact ⟨0, Nat.le_refl 0, h⟩
  | succ m ih =>
    intro i v h
    rw [tryDown] at h
    rcases (orElse_eq_some_iff _ _ _).1 h with h1 | ⟨_, h1⟩
    · exact ⟨m + 1, Nat.le_refl _, h1⟩
    · obtain ⟨d, hd, hf⟩ := ih i v h1
      exact ⟨d, Nat.le_succ_of_le hd, hf⟩

/-- A successful capture run is non-empty and all its characters satisfy the
capture class. -/
theorem capAt_spec (p : Char → Bool) (s : List Char) (k : Nat) (cap : List Char)
    (h : capAt p s k = some cap) : cap ≠ [] ∧ ∀ c ∈ cap, p c = true := by
  unfold capAt at h
  split at h
  · exact absurd h (by simp)
  · rename_i hne
    cases h
    exact ⟨by simpa using hne, fun c hc => List.mem_takeWhile_imp hc⟩

/-- The `#?`-then-capture step inherits the capture spec. -/
theorem hashCapAt_spec (p : Char → Bool) (s : List Char) (k : Nat) (cap : List Char)
    (h : hashCapAt p s k = some cap) : cap ≠ [] ∧ ∀ c ∈ cap, p c = true := by
  unfold hashCapAt at h
  split at h
  · exact capAt_spec p s (k + 1) cap h
  · exact capAt_spec p s k cap h

/-- The separator-then-capture tail inherits the capture spec. -/
theorem sepRest_spec (sep cap : Char → Bool) (s : List Char) (j : Nat) (r : List Char)
    (h : sepRest sep cap s j = some r) : r ≠ [] ∧ ∀ c ∈ r, cap c = true := by
  obtain ⟨d, _, hd⟩ := tryDown_eq_some _ _ _ _ h
  exact hashCapAt_spec cap s (j + d) r hd

/-- A successful `gmail_parser.py` job-id attempt captures a non-empty run of
capture-class characters. -/
theorem jobIdAttemptG_spec (s : List Char) (i : Nat) (r : List Char)
    (h : jobIdAttemptG s i = some r) : r ≠ [] ∧ ∀ c ∈ r, gCap c = true := by
  unfold jobIdAttemptG at h
  rcases (orElse_eq_some_iff _ _ _).1 h with h1 | ⟨_, h1⟩
  · split at h1
    · rcases (orElse_eq_some_iff _ _ _).1 h1 with h2 | ⟨_, h2⟩
      · split at h2
        · split at h2
          · simp at h2
          · exact sepRest_spec _ _ _ _ _ h2
        · simp at h2
      · rcases (orElse_eq_some_iff _ _ _).1 h2 with h3 | ⟨_, h3⟩
        · split at h3
          · exact sepRest_spec _ _ _ _ _ h3
          · simp at h3
        · exact sepRest_spec _ _ _ _ _ h3
    · simp at h1
  rcases (orElse_eq_some_iff _ _ _).1 h1 with h2 | ⟨_, h2⟩
  · split at h2
    · exact sepRest_spec _ _ _ _ _ h2
    · simp at h2
  rcases (orElse_eq_some_iff _ _ _).1 h2 with h3 | ⟨_, h3⟩
  · split at h3
    · split at h3
      · split at h3
        · exact sepRest_spec _ _ _ _ _ h3
        · simp at h3
      · simp at h3
    · simp at h3
  rcases (orElse_eq_some_iff _ _ _).1 h3 with h4 | ⟨_, h4⟩
  · split at h4
    · exact sepRest_spec _ _ _ _ _ h4
    · simp at h4
  rcases (orElse_eq_some_iff _ _ _).1 h4 with h5 | ⟨_, h5⟩
  · split at h5
    · split at h5
      · split at h5
        · exact sepRest_spec _ _ _ _ _ h5
        · simp at h5
      · simp at h5
    · simp at h5
  · split at h5
    · split at h5
      · split at h5
        · exact sepRest_spec _ _ _ _ _ h5
        · simp at h5
      · simp at h5
    · simp at h5

/-- A successful `backend/app.py` job-id attempt captures a non-empty run of
capture-class characters. -/
theorem jobIdAttemptB_spec (s : List Char) (i : Nat) (r : List Char)
    (h : jobIdAttemptB s i = some r) : r ≠ [] ∧ ∀ c ∈ r, bCap c = true := by
  unfold jobIdAttemptB at h
  rcases (orElse_eq_some_iff _ _ _).1 h with h1 | ⟨_, h1⟩
  · split at h1
    · rcases (orElse_eq_some_iff _ _ _).1 h1 with h2 | ⟨_, h2⟩
      · split at h2
        · exact sepRest_spec _ _ _ _ _ h2
        · simp at h2
      · rcases (orElse_eq_some_iff _ _ _).1 h2 with h3 | ⟨_, h3⟩
        · split at h3
          · exact sepRest_spec _ _ _ _ _ h3
          · simp at h3
        · exact sepRest_spec _ _ _ _ _ h3
    · simp at h1
  rcases (orElse_eq_some_iff _ _ _).1 h1 with h2 | ⟨_, h2⟩
  · split at h2
    · exact sepRest_spec _ _ _ _ _ h2
    · simp at h2
  rcases (orElse_eq_some_iff _ _ _).1 h2 with h3 | ⟨_, h3⟩
  · split at h3
    · split at h3
      · exact sepRest_spec _ _ _ _ _ h3
      · simp at h3
    · simp at h3
  rcases (orElse_eq_some_iff _ _ _).1 h3 with h4 | ⟨_, h4⟩
  · split at h4
    · exact sepRest_spec _ _ _ _ _ h4
    · simp at h4
  rcases (orElse_eq_some_iff _ _ _).1 h4 with h5 | ⟨_, h5⟩
  · split at h5
    · split at h5
      · exact sepRest_spec _ _ _ _ _ h5
      · simp at h5
    · simp at h5
  · split at h5
    · split at h5
      · exact sepRest_spec _ _ _ _ _ h5
      · simp at h5
    · simp at h5

/-- A successful `gmail_parser.py` job-id search captures a non-empty run of
capture-class characters. -/
theorem jobIdSearchG_spec (s : List Char) (r : List Char)
    (h : jobIdSearchG s = some r) : r ≠ [] ∧ ∀ c ∈ r, gCap c = true := by
  obtain ⟨d, _, hd⟩ := scanFrom_eq_some _ _ _ _ h
  exact jobIdAttemptG_spec s (0 + d) r hd

/-- A successful `backend/app.py` job-id search captures a non-empty run of
capture-class characters. -/
theorem jobIdSearchB_spec (s : List Char) (r : List Char)
    (h : jobIdSearchB s = some r) : r ≠ [] ∧ ∀ c ∈ r, bCap c = true := by
  obtain ⟨d, _, hd⟩ := scanFrom_eq_some _ _ _ _ h
  exact jobIdAttemptB_spec s (0 + d) r hd

/-- A whitespace character is one of the six ASCII whitespace characters. -/
theorem pyWS_cases (c : Char) (h : pyWS c = true) :
    c ∈ [' ', '\t', '\n', '\r', '\x0b', '\x0c'] := by
  unfold pyWS at h
  simp only [Bool.or_eq_true, decide_eq_true_eq] at h
  simp only [List.mem_cons, List.not_mem_nil, or_false]
  tauto

/-- Characters of the gmail job-id capture class are never whitespace. -/
theorem gCap_not_ws (c : Char) (h : gCap c = true) : pyWS c = false := by
  cases hws : pyWS c
  · rfl
  · exfalso
    have hmem := pyWS_cases c hws
    fin_cases hmem <;> revert h <;> decide

/-- Characters of the backend job-id capture class are never whitespace. -/
theorem bCap_not_ws (c : Char) (h : bCap c = true) : pyWS c = false := by
  cases hws : pyWS c
  · rfl
  · exfalso
    have hmem := pyWS_cases c hws
    fin_cases hmem <;> revert h <;> decide

/-- The head of the list, if any, is not whitespace. -/
def noLeadWS : List Char → Bool
  | [] => true
  | c :: _ => !pyWS c

/-- Left trim is the identity when there is no leading whitespace. -/
theorem trimLeft_eq_self (l : List Char) (h : noLeadWS l = true) : trimLeft l = l := by
  cases l with
  | nil => rfl
  | cons c cs =>
    have hc : pyWS c = false := by simpa [noLeadWS] using h
    simp [trimLeft, List.dropWhile_cons, hc]

/-- Left trim leaves no leading whitespace. -/
theorem noLeadWS_trimLeft (l : List Char) : noLeadWS (trimLeft l) = true := by
  induction l with
  | nil => rfl
  | cons c cs ih =>
    by_cases hc : pyWS c = true
    · simpa [trimLeft, List.dropWhile_cons, hc] using ih
    · simp only [Bool.not_eq_true] at hc
      simp [trimLeft, List.dropWhile_cons, hc, noLeadWS]

/-- Unfolding equation for `trimRight` on a cons cell. -/
theorem trimRight_cons (c : Char) (cs : List Char) :
    trimRight (c :: cs) =
      if (trimRight cs).isEmpty then (if pyWS c then [] else [c])
      else c :: trimRight cs := rfl

/-- Right trim is idempotent. -/
theorem trimRight_idem (l : List Char) : trimRight (trimRight l) = trimRight l := by
  induction l with
  | nil => rfl
  | cons c cs ih =>
    cases hr : trimRight cs with
    | nil =>
      rw [trimRight_cons, hr]
      by_cases hc : pyWS c = true
      · simp only [List.isEmpty_nil, if_true, hc]
        rfl
      · simp only [Bool.not_eq_true] at hc
        simp [hc, trimRight_cons, trimRight]
    | cons d ds =>
      have h2 : trimRight (d :: ds) = d :: ds := hr ▸ ih
      rw [trimRight_cons, hr]
      simp only [List.isEmpty_cons, Bool.false_eq_true, if_false]
      rw [trimRight_cons, ← hr, ih, hr]
      simp

/-- Right trim preserves the absence of leading whitespace. -/
theorem noLeadWS_trimRight (l : List Char) (h : noLeadWS l = true) :
    noLeadWS (trimRight l) = true := by
  cases l with
  | nil => rfl
  | cons c cs =>
    have hc : pyWS c = false := by simpa [noLeadWS] using h
    rw [trimRight]
    by_cases he : (trimRight cs).isEmpty = true
    · simp [he, hc, noLeadWS]
    · simp [he, noLeadWS, hc]

/-- Python `strip` is idempotent. -/
theorem trimList_idem (l : List Char) : trimList (trimList l) = trimList l := by
  unfold trimList
  rw [trimLeft_eq_self _ (noLeadWS_trimRight _ (noLeadWS_trimLeft l)), trimRight_idem]

/-- Left trim of an all-whitespace list is empty. -/
theorem trimLeft_eq_nil (l : List Char) (h : ∀ c ∈ l, pyWS c = true) : trimLeft l = [] := by
  induction l with
  | nil => rfl
  | cons c cs ih =>
    have := h c (by simp)
    simp only [trimLeft, List.dropWhile_cons, this, if_true]
    exact ih fun x hx => h x (by simp [hx])

/-- Python `strip` of an all-whitespace list is empty. -/
theorem trimList_eq_nil (l : List Char) (h : ∀ c ∈ l, pyWS c = true) : trimList l = [] := by
  unfold trimList
  rw [trimLeft_eq_nil l h]
  rfl

/-- Right trim is the identity on whitespace-free lists. -/
theorem trimRight_eq_self_of_all (l : List Char) (h : ∀ c ∈ l, pyWS c = false) :
    trimRight l = l := by
  induction l with
  | nil => rfl
  | cons c cs ih =>
    have ih' : trimRight cs = cs := ih fun x hx => h x (by simp [hx])
    rw [trimRight, ih']
    cases cs with
    | nil => simp [h c (by simp)]
    | cons d ds => simp

/-- Python `strip` is the identity on whitespace-free lists. -/
theorem trimList_eq_self_of_all (l : List Char) (h : ∀ c ∈ l, pyWS c = false) :
    trimList l = l := by
  unfold trimList
  rw [trimLeft_eq_self l (by cases l with | nil => rfl | cons c cs => simpa [noLeadWS] using h c (by simp))]
  exact trimRight_eq_self_of_all l h

/-- Unfolding equation: the job id computed by `extract_fields`. -/
theorem extract_fields_job_id (subject body : String) :
    (extract_fields subject body).job_id =
      (match jobIdSearchG body.data with
       | some cap => some (pyStripS (String.mk cap))
       | none =>
         match jobIdSearchG subject.data with
         | some cap => some (pyStripS (String.mk cap))
         | none => none) := rfl

/-- Unfolding equation: the job id computed by `parse_email_text`. -/
theorem parse_email_text_job_id (subject body : String) :
    (parse_email_text subject body).job_id =
      (match jobIdSearchB body.data with
       | some cap => some (pyStripS (String.mk cap))
       | none =>
         match jobIdSearchB subject.data with
         | some cap => some (pyStripS (String.mk cap))
         | none => none) := rfl

/-- Unfolding equation: the classifier bit computed by `parse_email_text`. -/
theorem parse_email_text_is_application (subject body : String) :
    (parse_email_text subject body).is_application =
      ((pyTruthyStr subject && (reSearch confirmationRe subject.data).isSome) ||
       (pyTruthyStr body && (reSearch confirmationRe body.data).isSome)) := rfl

/-- A stripped non-empty whitespace-free capture is unchanged by `strip` and
stays non-empty and whitespace-free. -/
theorem strip_capture_shape (cap : List Char) (hne : cap ≠ [])
    (hall : ∀ c ∈ cap, pyWS c = false) :
    pyStripS (String.mk cap) ≠ "" ∧
      (pyStripS (String.mk cap)).data.all (fun c => !pyWS c) = true ∧
      pyStripS (pyStripS (String.mk cap)) = pyStripS (String.mk cap) := by
  have ht : trimList cap = cap := trimList_eq_self_of_all cap hall
  have hs : pyStripS (String.mk cap) = String.mk cap := by
    unfold pyStripS
    simp [ht]
  refine ⟨?_, ?_, ?_⟩
  · rw [hs]
    intro hcon
    exact hne (by simpa using congrArg String.data hcon)
  · rw [hs]
    simpa [List.all_eq_true] using fun c hc => by simp [hall c hc]
  · rw [hs, hs]

/-- C10: whenever field extraction (either copy) returns a present job id,
it is a non-empty string containing no whitespace — every character comes
from the job-id pattern's capture class, which excludes spaces — so the
`strip` applied to the captured token never changes it. -/
theorem c10_jobid_capture_shape (subject body : String) (jid : String) :
    ((extract_fields subject body).job_id = some jid →
      jid ≠ "" ∧ jid.data.all (fun c => !pyWS c) = true ∧ pyStripS jid = jid)
    ∧ ((parse_email_text subject body).job_id = some jid →
      jid ≠ "" ∧ jid.data.all (fun c => !pyWS c) = true ∧ pyStripS jid = jid) := by
  constructor
  · intro h
    rw [extract_fields_job_id] at h
    cases hb : jobIdSearchG body.data with
    | some cap =>
      rw [hb] at h
      obtain ⟨hne, hall⟩ := jobIdSearchG_spec body.data cap hb
      obtain ⟨h1, h2, h3⟩ := strip_capture_shape cap hne
        (fun c hc => gCap_not_ws c (hall c hc))
      cases h
      exact ⟨h1, h2, h3⟩
    | none =>
      rw [hb] at h
      cases hs : jobIdSearchG subject.data with
      | some cap =>
        rw [hs] at h
        obtain ⟨hne, hall⟩ := jobIdSearchG_spec subject.data cap hs
        obtain ⟨h1, h2, h3⟩ := strip_capture_shape cap hne
          (fun c hc => gCap_not_ws c (hall c hc))
        cases h
        exact ⟨h1, h2, h3⟩
      | none => rw [hs] at h; exact absurd h (by simp)
  · intro h
    rw [parse_email_text_job_id] at h
    cases hb : jobIdSearchB body.data with
    | some cap =>
      rw [hb] at h
      obtain ⟨hne, hall⟩ := jobIdSearchB_spec body.data cap hb
      obtain ⟨h1, h2, h3⟩ := strip_capture_shape cap hne
        (fun c hc => bCap_not_ws c (hall c hc))
      cases h
      exact ⟨h1, h2, h3⟩
    | none =>
      rw [hb] at h
      cases hs : jobIdSearchB subject.data with
      | some cap =>
        rw [hs] at h
        obtain ⟨hne, hall⟩ := jobIdSearchB_spec subject.data cap hs
        obtain ⟨h1, h2, h3⟩ := strip_capture_shape cap hne
          (fun c hc => bCap_not_ws c (hall c hc))
        cases h
        exact ⟨h1, h2, h3⟩
      | none => rw [hs] at h; exact absurd h (by simp)

/-- Witness for C10 at a concrete input: both job-id searches fire on
`"req:AB-12"` (the gmail capture class has no hyphen, the backend one does)
and the resulting job ids are non-empty, whitespace-free and strip-invariant. -/
theorem c10_witness :
    ("AB" ≠ "" ∧ "AB".data.all (fun c => !pyWS c) = true ∧ pyStripS "AB" = "AB")
    ∧ ("AB-12" ≠ "" ∧ "AB-12".data.all (fun c => !pyWS c) = true ∧
        pyStripS "AB-12" = "AB-12") :=
  ⟨(c10_jobid_capture_shape "" "req:AB-12" "AB").1 (by decide),
   (c10_jobid_capture_shape "" "req:AB-12" "AB-12").2 (by decide)⟩

/-- C7: the job-id search looks at the body before the subject.  For both
copies, whenever the job-id pattern matches in the body (in particular when it
also matches in the subject), the extracted `job_id` is the stripped body
capture, never the subject's. -/
theorem c7_jobid_body_first (subject body : String) :
    ((jobIdSearchG body.data).isSome = true → (jobIdSearchG subject.data).isSome = true →
      (extract_fields subject body).job_id =
        (jobIdSearchG body.data).map (fun cap => pyStripS (String.mk cap)))
    ∧ ((jobIdSearchB body.data).isSome = true → (jobIdSearchB subject.data).isSome = true →
      (parse_email_text subject body).job_id =
        (jobIdSearchB body.data).map (fun cap => pyStripS (String.mk cap))) := by
  constructor
  · intro hb _hs
    rw [extract_fields_job_id]
    obtain ⟨cap, hcap⟩ := Option.isSome_iff_exists.1 hb
    rw [hcap]
    rfl
  · intro hb _hs
    rw [parse_email_text_job_id]
    obtain ⟨cap, hcap⟩ := Option.isSome_iff_exists.1 hb
    rw [hcap]
    rfl

/-- Witness for C7 at a concrete input where both the body and the subject
contain a job-id match, for both regex copies. -/
theorem c7_witness :
    (extract_fields "req:CD34" "req:AB12").job_id =
      (jobIdSearchG "req:AB12".data).map (fun cap => pyStripS (String.mk cap))
    ∧ (parse_email_text "req:CD34" "req:AB12").job_id =
      (jobIdSearchB "req:AB12".data).map (fun cap => pyStripS (String.mk cap)) :=
  ⟨(c7_jobid_body_first "req:CD34" "req:AB12").1 (by decide) (by decide),
   (c7_jobid_body_first "req:CD34" "req:AB12").2 (by decide) (by decide)⟩

/-- C1: evaluation of both pipelines on the spec's first scenario,
subject `"Software Engineer Intern - Acme Corp"`, body
`"Thank you for applying to Acme Corp. Req ID: R-1234"`.  The claim expects
`is_application=true`, `title="Software Engineer Intern"`,
`company="Acme Corp"`, `job_id="R-1234"`.  The gmail copy returns no title
and no job id (its doubled-backslash regexes require literal backslash
characters), and the backend copy returns `job_id="ID"` (the `Req`
alternative matches and `[\s:]*` absorbs the space, so `ID` is captured). -/
theorem c1_scenario_eval :
    is_application_email (some "Software Engineer Intern - Acme Corp")
      (some "Thank you for applying to Acme Corp. Req ID: R-1234") = true
    ∧ extract_fields "Software Engineer Intern - Acme Corp"
        "Thank you for applying to Acme Corp. Req ID: R-1234" =
      { company := some "Acme Corp", title := none, job_id := none }
    ∧ parse_email_text "Software Engineer Intern - Acme Corp"
        "Thank you for applying to Acme Corp. Req ID: R-1234" =
      { is_application := true, company := some "Acme Corp",
        title := some "Software Engineer Intern", job_id := some "ID" } :=
  ⟨by decide, by decide, by decide⟩

/-- C2 counterexample: field extraction does raise on absent input.  An
absent body reaches `job_id_regex.search(None)` immediately, and an absent
subject reaches `regex.search(None)` in the thank-you loop (strategy 1 cannot
match the replacement `""`), so both calls raise `TypeError`. -/
theorem c2_counterexample :
    extract_fields_py (some "Software Engineer") none = Except.error PyErr.typeError
    ∧ extract_fields_py none (some "We are hiring") = Except.error PyErr.typeError :=
  ⟨rfl, rfl⟩

/-- C2 amended: for every pair of string inputs (including empty strings),
field extraction runs to completion and returns a result record — the
`TypeError` cases require an absent (`None`) input. -/
theorem c2_string_inputs_total (subject body : String) :
    extract_fields_py (some subject) (some body) =
      Except.ok (extract_fields subject body) := by
  unfold extract_fields_py extract_fields
  dsimp only [Option.getD]
  cases hco : truthyOpt ((match reSearch subjectPatternG subject.data with
    | some m =>
      (some (pyStripS (mGroup m 1 subject.data)),
       clean_company_name (mGroup m 2 subject.data))
    | none => ((none : Option String), (none : Option String))).2) <;> rfl

/-- The company value after strategy 1 (subject split) of `extract_fields`. -/
def companyAfter1 (subject : String) : Option String :=
  (match reSearch subjectPatternG subject.data with
   | some m =>
     (some (pyStripS (mGroup m 1 subject.data)),
      clean_company_name (mGroup m 2 subject.data))
   | none => ((none : Option String), (none : Option String))).2

/-- The company value after strategy 2 (thank-you loop) of `extract_fields`. -/
def companyAfter2 (subject body : String) : Option String :=
  if truthyOpt (companyAfter1 subject) then companyAfter1 subject
  else
    match tyLoop thankYouPatterns subject body with
    | some cap => clean_company_name cap
    | none => companyAfter1 subject

/-- The company value after strategy 3 (`Company:` field) of `extract_fields`. -/
def companyAfter3 (subject body : String) : Option String :=
  if truthyOpt (companyAfter2 subject body) then companyAfter2 subject body
  else
    match reSearch companyFieldG body.data with
    | some m => clean_company_name (mGroup m 1 body.data)
    | none => companyAfter2 subject body

/-- The company value after strategy 4 (subject prefix) of `extract_fields`. -/
def companyAfter4 (subject body : String) : Option String :=
  if truthyOpt (companyAfter3 subject body) then companyAfter3 subject body
  else
    match subjectPrefixStage subject with
    | some v => some v
    | none => companyAfter3 subject body

/-- The company field of `extract_fields` is the value after the four-stage
cascade. -/
theorem extract_fields_company (subject body : String) :
    (extract_fields subject body).company = companyAfter4 subject body := rfl

/-- The title field of `extract_fields` comes from the subject split only. -/
theorem extract_fields_title (subject body : String) :
    (extract_fields subject body).title =
      (match reSearch subjectPatternG subject.data with
       | some m =>
         (some (pyStripS (mGroup m 1 subject.data)),
          clean_company_name (mGroup m 2 subject.data))
       | none => ((none : Option String), (none : Option String))).1 := rfl

/-- Strategy 0 in isolation, by unfolding. -/
theorem companyStrategy_zero (subject body : String) :
    companyStrategy 0 subject body =
      (match reSearch subjectPatternG subject.data with
       | some m => clean_company_name (mGroup m 2 subject.data)
       | none => none) := rfl

/-- Strategy 1 in isolation, by unfolding. -/
theorem companyStrategy_one (subject body : String) :
    companyStrategy 1 subject body =
      (match tyLoop thankYouPatterns subject body with
       | some cap => clean_company_name cap
       | none => none) := rfl

/-- Strategy 2 in isolation, by unfolding. -/
theorem companyStrategy_two (subject body : String) :
    companyStrategy 2 subject body =
      (match reSearch companyFieldG body.data with
       | some m => clean_company_name (mGroup m 1 body.data)
       | none => none) := rfl

/-- Strategy 3 in isolation, by unfolding. -/
theorem companyStrategy_three (subject body : String) :
    companyStrategy 3 subject body = subjectPrefixStage subject := rfl

/-- The value after strategy 1 is strategy 0 in isolation. -/
theorem companyAfter1_eq (subject body : String) :
    companyAfter1 subject = companyStrategy 0 subject body := by
  rw [companyStrategy_zero]
  unfold companyAfter1
  cases reSearch subjectPatternG subject.data <;> rfl

/-- Cascade lemma: if the strategies before `i` are all falsy in isolation
and strategy `i` is truthy in isolation, the extracted company is exactly
strategy `i`'s value. -/
theorem cascade_first_truthy (subject body : String) (i : Nat) (hi : i < 4)
    (ht : truthyOpt (companyStrategy i subject body) = true)
    (hj : ∀ j, j < i → truthyOpt (companyStrategy j subject body) = false) :
    (extract_fields subject body).company = companyStrategy i subject body := by
  rw [extract_fields_company]
  interval_cases i
  · unfold companyAfter4 companyAfter3 companyAfter2
    rw [companyAfter1_eq subject body]
    simp only [ht, if_true]
  · have h0 : truthyOpt (companyStrategy 0 subject body) = false := hj 0 (by omega)
    rw [companyStrategy_one] at ht ⊢
    unfold companyAfter4 companyAfter3 companyAfter2
    rw [companyAfter1_eq subject body, h0]
    simp only [Bool.false_eq_true, if_false]
    cases htl : tyLoop thankYouPatterns subject body with
    | none => rw [htl] at ht; simp [truthyOpt] at ht
    | some cap =>
      rw [htl] at ht
      simp only [ht, if_true]
  · have h0 : truthyOpt (companyStrategy 0 subject body) = false := hj 0 (by omega)
    have h1 : truthyOpt (companyStrategy 1 subject body) = false := hj 1 (by omega)
    rw [companyStrategy_one] at h1
    rw [companyStrategy_two] at ht ⊢
    unfold companyAfter4 companyAfter3 companyAfter2
    rw [companyAfter1_eq subject body, h0]
    simp only [Bool.false_eq_true, if_false]
    cases htl : tyLoop thankYouPatterns subject body with
    | none =>
      rw [h0]
      simp only [Bool.false_eq_true, if_false]
      cases hcf : reSearch companyFieldG body.data with
      | none => rw [hcf] at ht; simp [truthyOpt] at ht
      | some m =>
        rw [hcf] at ht
        simp only [ht, if_true]
    | some cap =>
      rw [htl] at h1
      rw [h1]
      simp only [Bool.false_eq_true, if_false]
      cases hcf : reSearch companyFieldG body.data with
      | none => rw [hcf] at ht; simp [truthyOpt] at ht
      | some m =>
        rw [hcf] at ht
        simp only [ht, if_true]
  · have h0 : truthyOpt (companyStrategy 0 subject body) = false := hj 0 (by omega)
    have h1 : truthyOpt (companyStrategy 1 subject body) = false := hj 1 (by omega)
    have h2 : truthyOpt (companyStrategy 2 subject body) = false := hj 2 (by omega)
    rw [companyStrategy_one] at h1
    rw [companyStrategy_two] at h2
    rw [companyStrategy_three] at ht ⊢
    unfold companyAfter4 companyAfter3 companyAfter2
    rw [companyAfter1_eq subject body, h0]
    simp only [Bool.false_eq_true, if_false]
    cases hps : subjectPrefixStage subject with
    | none => rw [hps] at ht; simp [truthyOpt] at ht
    | some v =>
      rw [hps] at ht
      cases htl : tyLoop thankYouPatterns subject body with
      | none =>
        rw [h0]
        simp only [Bool.false_eq_true, if_false]
        cases hcf : reSearch companyFieldG body.data with
        | none =>
          rw [h0]
          simp only [Bool.false_eq_true, if_false]
        | some m =>
          rw [htl] at h1
          have h2' := h2
          rw [hcf] at h2'
          rw [h2']
          simp only [Bool.false_eq_true, if_false]
      | some cap =>
        rw [htl] at h1
        rw [h1]
        simp only [Bool.false_eq_true, if_false]
        cases hcf : reSearch companyFieldG body.data with
        | none =>
          rw [h1]
          simp only [Bool.false_eq_true, if_false]
        | some m =>
          rw [hcf] at h2
          rw [h2]
          simp only [Bool.false_eq_true, if_false]

/-- C5: once a strategy in the company cascade produces a truthy (non-empty)
value and no earlier strategy did, the extracted company is exactly that
strategy's value — later strategies never overwrite it, even if their
patterns would also match. -/
theorem c5_priority_invariant (subject body : String) (i : Nat) (hi : i < 4)
    (ht : truthyOpt (companyStrategy i subject body) = true)
    (hj : ∀ j, j < i → truthyOpt (companyStrategy j subject body) = false) :
    (extract_fields subject body).company = companyStrategy i subject body :=
  cascade_first_truthy subject body i hi ht hj

/-- Witness for C5: strategy 2 (index 1) fires on a thank-you body while the
subject-split strategy does not. -/
theorem c5_witness :
    (extract_fields "" "thank you for applying to Acme").company =
      companyStrategy 1 "" "thank you for applying to Acme" :=
  c5_priority_invariant "" "thank you for applying to Acme" 1 (by omega)
    (by decide) (by decide)

/-- C4 counterexample: a whitespace-only (non-empty) input makes
`clean_company_name` return the present empty string, not the absent value —
the falsiness test happens before the trim. -/
theorem c4_counterexample :
    clean_company_name " " ≠ none ∧ clean_company_name " " = some "" :=
  ⟨by decide, by decide⟩

/-- C4 amended: `clean_company_name` returns the absent value exactly for the
empty-string input; a whitespace-only non-empty input is trimmed to the empty
string, which is returned as a present (empty) value. -/
theorem c4_absent_iff_empty (s : String) :
    (clean_company_name s = none ↔ s = "") ∧
    (s ≠ "" → s.data.all pyWS = true → clean_company_name s = some "") := by
  constructor
  · by_cases h : s = ""
    · simp [clean_company_name, h]
    · simp [clean_company_name, h]
  · intro hne hall
    have ht : trimList s.data = [] :=
      trimList_eq_nil s.data (by simpa [List.all_eq_true] using hall)
    have h1 : pyStripS s = "" := by
      unfold pyStripS
      rw [ht]
    unfold clean_company_name
    rw [if_neg hne, h1]
    rfl

/-- Witness for C4: applied at the empty and at a whitespace-only input. -/
theorem c4_witness :
    (clean_company_name "" = none ↔ ("" : String) = "") ∧
      clean_company_name " " = some "" :=
  ⟨(c4_absent_iff_empty "").1,
   (c4_absent_iff_empty " ").2 (by decide) (by decide)⟩

/-- C3 counterexample: `clean_company_name` is not idempotent.  On
`"Foo. team"` one application yields `"Foo."` (the suffix cut exposes new
trailing punctuation), and a second application yields `"Foo"`. -/
theorem c3_counterexample :
    (clean_company_name "Foo. team").bind clean_company_name ≠
      clean_company_name "Foo. team" ∧
    clean_company_name "Foo. team" = some "Foo." ∧
    clean_company_name "Foo." = some "Foo" :=
  ⟨by decide, by decide, by decide⟩

/-- Both trims fix the list. -/
def Stripped (l : List Char) : Prop := trimLeft l = l ∧ trimRight l = l

/-- The output of Python `strip` is stripped. -/
theorem stripped_trimList (l : List Char) : Stripped (trimList l) := by
  constructor
  · exact trimLeft_eq_self _ (noLeadWS_trimRight _ (noLeadWS_trimLeft l))
  · unfold trimList
    exact trimRight_idem _

/-- The suffix-stripping loop preserves strippedness. -/
theorem stripPhrasesL_stripped (ps : List String) (n : String)
    (h : Stripped n.data) : Stripped (stripPhrasesL ps n).data := by
  induction ps generalizing n with
  | nil => exact h
  | cons p ps ih =>
    rw [stripPhrasesL]
    by_cases hs : p.data.isSuffixOf (lowerStr n).data = true
    · rw [if_pos hs]
      exact ih _ (stripped_trimList _)
    · rw [if_neg hs]
      exact ih _ h

/-- A clean result is stripped. -/
theorem clean_stripped (x y : String) (h : clean_company_name x = some y) :
    Stripped y.data := by
  unfold clean_company_name at h
  by_cases hx : x = ""
  · rw [if_pos hx] at h
    exact absurd h (by simp)
  · rw [if_neg hx] at h
    have := stripPhrasesL_stripped boilerplatePhrases
      (pyStripS (String.mk (pySubPunct (pyStripS x).data))) (stripped_trimList _)
    rwa [Option.some_inj.1 h] at this

/-- A right-trim fixpoint has no trailing whitespace. -/
theorem trimRight_getLast (l : List Char) (hfix : trimRight l = l) (c : Char)
    (hl : l.getLast? = some c) : pyWS c = false := by
  induction l generalizing c with
  | nil => simp at hl
  | cons d ds ih =>
    cases ds with
    | nil =>
      have hc : d = c := by simpa using hl
      subst hc
      rw [trimRight_cons] at hfix
      simp only [show trimRight ([] : List Char) = [] from rfl, List.isEmpty_nil,
        if_true] at hfix
      by_cases hd : pyWS d = true
      · rw [if_pos hd] at hfix
        exact absurd hfix (by simp)
      · simpa using hd
    | cons e es =>
      rw [trimRight_cons] at hfix
      by_cases he : (trimRight (e :: es)).isEmpty = true
      · rw [if_pos he] at hfix
        by_cases hd : pyWS d = true
        · rw [if_pos hd] at hfix
          exact absurd hfix (by simp)
        · rw [if_neg hd] at hfix
          exact absurd (congrArg List.length hfix) (by simp)
      · rw [if_neg he] at hfix
        injection hfix with h1 h2
        rw [List.getLast?_cons_cons] at hl
        exact ih h2 c hl

/-- The suffix-stripping loop is the identity when no phrase is a suffix. -/
theorem stripPhrasesL_id (ps : List String) (n : String)
    (h : ∀ p ∈ ps, p.data.isSuffixOf (lowerStr n).data = false) :
    stripPhrasesL ps n = n := by
  induction ps with
  | nil => rfl
  | cons p ps ih =>
    rw [stripPhrasesL, if_neg (by simp [h p (by simp)])]
    exact ih fun q hq => h q (by simp [hq])

/-- The cleaned value is a fixpoint of `clean_company_name` when it is
non-empty, has no trailing `[.,;:!?]` punctuation, and does not end
(case-insensitively) in a boilerplate suffix. -/
def cleanFixpointOK (y : String) : Bool :=
  (!y.data.isEmpty) && (dropPunctSuffix y.data == y.data) &&
    boilerplatePhrases.all (fun p => !(p.data.isSuffixOf (lowerStr y).data))

/-- A stripped string satisfying `cleanFixpointOK` is a fixpoint of
`clean_company_name`. -/
theorem clean_fixpoint (y : String) (h : cleanFixpointOK y = true)
    (hs : Stripped y.data) : clean_company_name y = some y := by
  simp only [cleanFixpointOK, Bool.and_eq_true, beq_iff_eq, Bool.not_eq_true',
    List.all_eq_true] at h
  obtain ⟨⟨hne, hpunct⟩, hsuff⟩ := h
  have hmk : String.mk y.data = y := by
    obtain ⟨d⟩ := y
    rfl
  have hyne : y ≠ "" := by
    intro hcon
    rw [hcon] at hne
    simp at hne
  have hstr : pyStripS y = y := by
    unfold pyStripS trimList
    rw [hs.1, hs.2, hmk]
  have hsub : pySubPunct y.data = y.data := by
    have hlast : y.data.getLast? ≠ some '\n' := by
      intro hcon
      have h2 := trimRight_getLast y.data hs.2 '\n' hcon
      simp [pyWS] at h2
    unfold pySubPunct
    cases hl : y.data.getLast? with
    | none => exact hpunct
    | some c =>
      have hcn : c ≠ '\n' := fun hc => hlast (hc ▸ hl)
      split
      · rename_i heq
        exact absurd heq (by simpa using hcn)
      · exact hpunct
  unfold clean_company_name
  rw [if_neg hyne]
  simp only [hstr, hsub, hmk, stripPhrasesL_id boilerplatePhrases y hsuff]

/-- C3 amended: `clean_company_name` is idempotent on every input whose
cleaned value (when present) is non-empty, free of trailing punctuation and
free of a trailing boilerplate suffix; the counterexample `"Foo. team"` shows
the restriction is necessary. -/
theorem c3_conditional_idempotent (x : String)
    (h : (clean_company_name x).all cleanFixpointOK = true) :
    (clean_company_name x).bind clean_company_name = clean_company_name x := by
  cases hcl : clean_company_name x with
  | none => rfl
  | some y =>
    rw [hcl] at h
    have h' : cleanFixpointOK y = true := h
    have hfix := clean_fixpoint y h' (clean_stripped x y hcl)
    exact hfix

/-- Witness for C3: a clean input whose cleaned value satisfies the fixpoint
condition. -/
theorem c3_witness :
    (clean_company_name " Acme Corp ").bind clean_company_name =
      clean_company_name " Acme Corp " :=
  c3_conditional_idempotent " Acme Corp " (by decide)

/-- A string is the empty string iff its character list is empty. -/
theorem str_eq_empty_iff (s : String) : s = "" ↔ s.data = [] := by
  obtain ⟨d⟩ := s
  constructor
  · intro h
    simpa using congrArg String.data h
  · intro h
    have hd : d = [] := h
    rw [hd]

/-- C9: the subject-prefix fallback.  (i) It produces a company `v` exactly
when the subject is non-empty and contains `':'`, the segment before the
first colon has at most 4 words and cleans to `v`, and `v` is longer than 2
characters and is not (case-insensitively) `re`/`fwd`/`fw`.  (ii) Its value
is used as the extracted company only when the three earlier strategies
produced falsy values.  (iii) On subject `"Re: interview scheduling"` with
empty body the company stays absent. -/
theorem c9_subject_prefix_fallback :
    (∀ (subject v : String),
      subjectPrefixStage subject = some v ↔
        subject ≠ "" ∧ subject.data.contains ':' = true ∧
        pyWordCount (String.mk (subject.data.takeWhile (fun c => c ≠ ':'))) ≤ 4 ∧
        clean_company_name (String.mk (subject.data.takeWhile (fun c => c ≠ ':'))) =
          some v ∧
        2 < v.length ∧ rejectWords.contains (lowerStr v) = false)
    ∧ (∀ subject body : String,
        truthyOpt (subjectPrefixStage subject) = true →
        (∀ j, j < 3 → truthyOpt (companyStrategy j subject body) = false) →
        (extract_fields subject body).company = subjectPrefixStage subject)
    ∧ (extract_fields "Re: interview scheduling" "").company = none := by
  refine ⟨?_, ?_, by decide⟩
  · intro subject v
    unfold subjectPrefixStage
    by_cases hg : (pyTruthyStr subject && subject.data.contains ':') = true
    · rw [if_pos hg]
      simp only [Bool.and_eq_true] at hg
      obtain ⟨hts, hcol⟩ := hg
      have hne : subject ≠ "" := by
        intro hcon
        rw [str_eq_empty_iff] at hcon
        unfold pyTruthyStr at hts
        rw [hcon] at hts
        simp at hts
      have hsplit : pySplit1 subject =
          [String.mk (subject.data.takeWhile (fun c => c ≠ ':')),
           String.mk ((subject.data.dropWhile (fun c => c ≠ ':')).drop 1)] := by
        unfold pySplit1
        rw [if_pos hcol]
      simp only [hsplit, List.length_cons, List.length_nil, List.headD_cons]
      by_cases hwc :
          pyWordCount (String.mk (subject.data.takeWhile (fun c => c ≠ ':'))) ≤ 4
      · rw [if_pos ⟨trivial, hwc⟩]
        cases hcl :
            clean_company_name (String.mk (subject.data.takeWhile (fun c => c ≠ ':'))) with
        | none =>
          simp [hcl]
        | some cand =>
          dsimp only
          by_cases hacc : (!cand.data.isEmpty) = true ∧ 2 < cand.length ∧
              ¬ rejectWords.contains (lowerStr cand) = true
          · rw [if_pos hacc]
            constructor
            · intro h
              have hv : cand = v := by
                injection h
              subst hv
              exact ⟨hne, hcol, hwc, rfl, hacc.2.1, by simpa using hacc.2.2⟩
            · rintro ⟨_, _, _, hclv, _, _⟩
              exact hclv
          · rw [if_neg hacc]
            constructor
            · intro h
              simp at h
            · rintro ⟨_, _, _, hclv, hlen, hrej⟩
              have hv : cand = v := by
                injection hclv
              subst hv
              refine absurd ⟨?_, hlen, by simpa using hrej⟩ hacc
              have : cand.data ≠ [] := by
                intro hcon
                rw [show cand.length = cand.data.length from rfl, hcon] at hlen
                simp at hlen
              simpa using this
      · rw [if_neg (by simpa using hwc)]
        constructor
        · intro h
          simp at h
        · rintro ⟨_, _, hwc', _, _, _⟩
          exact absurd hwc' hwc
    · rw [if_neg hg]
      constructor
      · intro h
        simp at h
      · rintro ⟨hne, hcol, _, _, _, _⟩
        refine absurd ?_ hg
        simp only [Bool.and_eq_true]
        refine ⟨?_, hcol⟩
        unfold pyTruthyStr
        have hld : subject.data ≠ [] := fun hcon => hne (str_eq_empty_iff subject |>.2 hcon)
        simpa using hld
  · intro subject body ht hj
    have h := cascade_first_truthy subject body 3 (by omega)
      (by rwa [companyStrategy_three]) hj
    rwa [companyStrategy_three] at h

/-- Witness for C9: a subject whose prefix is accepted as the company when
the earlier strategies all fail. -/
theorem c9_witness :
    (extract_fields "Globex: hi" "").company = subjectPrefixStage "Globex: hi" :=
  c9_subject_prefix_fallback.2.1 "Globex: hi" "" (by decide) (by decide)

/-- First-match lemma for the thank-you loop over an arbitrary pattern list:
if no pattern before index `i` matches the subject or the body, and pattern
`i` matches one of them, the loop returns pattern `i`'s capture, taken from
the subject when the subject matches and from the body otherwise. -/
theorem tyLoop_first (ps : List Re) (subject body : String) :
    ∀ i, i < ps.length →
    (∀ j, j < i → reSearch (ps.getD j .eps) subject.data = none ∧
      reSearch (ps.getD j .eps) body.data = none) →
    ((reSearch (ps.getD i .eps) subject.data).isSome = true ∨
      (reSearch (ps.getD i .eps) body.data).isSome = true) →
    tyLoop ps subject body =
      (match reSearch (ps.getD i .eps) subject.data with
       | some m => some (mGroup m 1 subject.data)
       | none => (reSearch (ps.getD i .eps) body.data).map
           (fun m => mGroup m 1 body.data)) := by
  induction ps with
  | nil => intro i hi; simp at hi
  | cons p ps ih =>
    intro i hi hj hm
    cases i with
    | zero =>
      simp only [List.getD_cons_zero] at hm ⊢
      rw [tyLoop]
      cases hs : reSearch p subject.data with
      | some m => rfl
      | none =>
        cases hb : reSearch p body.data with
        | some m => rfl
        | none =>
          rw [hs, hb] at hm
          simp at hm
    | succ j =>
      have hp := hj 0 (Nat.succ_pos j)
      simp only [List.getD_cons_zero] at hp
      rw [tyLoop, hp.1, hp.2]
      simp only [List.getD_cons_succ] at hm ⊢
      exact ih j (by simpa using hi)
        (fun j' hj' => by simpa using hj (j' + 1) (by omega)) hm

/-- C6: in the thank-you stage the 5 patterns are tried in listed order, the
subject before the body for each pattern, and the first pattern that matches
(on subject or body) determines the captured company and short-circuits the
remaining patterns. -/
theorem c6_thankyou_order (subject body : String) (i : Nat) (hi : i < 5)
    (hj : ∀ j, j < i → reSearch (thankYouPatterns.getD j .eps) subject.data = none ∧
      reSearch (thankYouPatterns.getD j .eps) body.data = none)
    (hm : (reSearch (thankYouPatterns.getD i .eps) subject.data).isSome = true ∨
      (reSearch (thankYouPatterns.getD i .eps) body.data).isSome = true) :
    tyLoop thankYouPatterns subject body =
      (match reSearch (thankYouPatterns.getD i .eps) subject.data with
       | some m => some (mGroup m 1 subject.data)
       | none => (reSearch (thankYouPatterns.getD i .eps) body.data).map
           (fun m => mGroup m 1 body.data)) :=
  tyLoop_first thankYouPatterns subject body i
    (by simpa [thankYouPatterns] using hi) hj hm

/-- Witness for C6: pattern 2 (`thanks for applying to …`) matches the body
while pattern 1 matches neither subject nor body, so the loop returns
pattern 2's capture. -/
theorem c6_witness :
    tyLoop thankYouPatterns "" "thanks for applying to Zeta" = some "Zeta" := by
  have h := c6_thankyou_order "" "thanks for applying to Zeta" 1 (by omega)
    (by decide) (by decide)
  rw [h]
  decide


/-- Splitting a case-insensitive literal test over an append. -/
theorem prefixCI_append (a b l : List Char) :
    prefixCI (a ++ b) l = (prefixCI a l && prefixCI b (l.drop a.length)) := by
  induction a generalizing l with
  | nil => simp [prefixCI]
  | cons c cs ih =>
    cases l with
    | nil => simp [prefixCI]
    | cons d ds =>
      simp only [List.cons_append, prefixCI, List.length_cons,
        List.drop_succ_cons]
      rw [show cs.append b = cs ++ b from rfl, ih, Bool.and_assoc]

/-- The case-insensitive literal test is a prefix test on the lowercased text. -/
theorem prefixCI_lower_iff (p : List Char) : ∀ l : List Char,
    prefixCI p l = true ↔ p <+: l.map Char.toLower := by
  induction p with
  | nil => intro l; simp [prefixCI]
  | cons c cs ih =>
    intro l
    cases l with
    | nil => simp [prefixCI]
    | cons d ds =>
      simp only [prefixCI, Bool.and_eq_true, decide_eq_true_eq, List.map_cons, ih]
      constructor
      · rintro ⟨h1, r, hr⟩
        exact ⟨r, by simp [hr, h1]⟩
      · rintro ⟨r, hr⟩
        rw [List.cons_append] at hr
        injection hr with h1 h2
        exact ⟨h1.symm, r, h2⟩

/-- A non-empty pattern occurs at some position iff it is an infix of the
lowercased text. -/
theorem exists_prefixCI_iff_substr (p l : List Char) (_hp : p ≠ []) :
    (∃ i, prefixCI p (l.drop i) = true) ↔ p <:+: l.map Char.toLower := by
  constructor
  · rintro ⟨i, h⟩
    rw [prefixCI_lower_iff, List.map_drop] at h
    obtain ⟨r, hr⟩ := h
    refine ⟨(l.map Char.toLower).take i, r, ?_⟩
    rw [List.append_assoc, hr, List.take_append_drop]
  · rintro ⟨u, t, hst⟩
    refine ⟨u.length, ?_⟩
    rw [prefixCI_lower_iff, List.map_drop, ← hst, List.append_assoc,
      List.drop_left]
    exact ⟨t, rfl⟩

/-- A position that carries a non-empty prefix match is inside the text. -/
theorem prefixCI_pos_lt (p l : List Char) (i : Nat) (hp : p ≠ [])
    (h : prefixCI p (l.drop i) = true) : i < l.length := by
  cases hld : l.drop i with
  | nil =>
    rw [hld] at h
    cases p with
    | nil => exact absurd rfl hp
    | cons c cs => simp [prefixCI] at h
  | cons d ds => exact List.length_lt_of_drop_ne_nil (by simp [hld])

/-- Success of a guarded branch in the matcher. -/
theorem ite_eqtrue_isSome {α : Type} (b : Bool) (x : Option α) :
    (if b = true then x else none).isSome = (b && x.isSome) := by
  cases b <;> simp

/-- The seven confirmation phrases, lowercase, in pattern order. -/
def confirmationPhraseList : List String :=
  ["thank you for applying", "thank you for your application",
   "we have received your application", "application received",
   "your submission has been received", "application confirmation",
   "thank you for submitting your application"]

/-- None of the confirmation phrases is empty. -/
theorem conf_phrases_ne_nil : ∀ p ∈ confirmationPhraseList, p.data ≠ [] := by
  decide

/-- One attempt of the confirmation regex at position `i` succeeds exactly
when one of the seven phrases matches (case-insensitively) at `i`. -/
theorem conf_attempt_iff (s : List Char) (i : Nat)
    (c0 : List (Nat × Nat × Nat)) (k : Nat → List (Nat × Nat × Nat) → Option MRes)
    (hk : ∀ j c, (k j c).isSome = true) :
    (mtch s confirmationRe i c0 k).isSome = true ↔
      (prefixCI "thank you for applying".data (s.drop i) = true ∨
       prefixCI "thank you for your application".data (s.drop i) = true ∨
       prefixCI "we have received your application".data (s.drop i) = true ∨
       prefixCI "application received".data (s.drop i) = true ∨
       prefixCI "your submission has been received".data (s.drop i) = true ∨
       prefixCI "application confirmation".data (s.drop i) = true ∨
       prefixCI "thank you for submitting your application".data (s.drop i) = true) := by
  have key : ∀ a b : List Char,
      prefixCI (a ++ b) (s.drop i) = true ↔
        (prefixCI a (s.drop i) = true ∧
         prefixCI b (s.drop (i + a.length)) = true) := by
    intro a b
    rw [prefixCI_append, Bool.and_eq_true, List.drop_drop]
  simp only [confirmationRe, strL, mtch, orElse_isSome, ite_eqtrue_isSome, hk,
    Bool.and_true, Bool.or_eq_true, Bool.and_eq_true]
  constructor
  · rintro (⟨hA, h1 | h2⟩ | htail)
    · exact Or.inl ((key ("thank you for ".data.map Char.toLower)
        ("applying".data.map Char.toLower)).2 ⟨hA, h1⟩)
    · exact Or.inr (Or.inl ((key ("thank you for ".data.map Char.toLower)
        ("your application".data.map Char.toLower)).2 ⟨hA, h2⟩))
    · tauto
  · rintro (h | h | htail)
    · obtain ⟨hA, hB⟩ := (key ("thank you for ".data.map Char.toLower)
        ("applying".data.map Char.toLower)).1 h
      exact Or.inl ⟨hA, Or.inl hB⟩
    · obtain ⟨hA, hB⟩ := (key ("thank you for ".data.map Char.toLower)
        ("your application".data.map Char.toLower)).1 h
      exact Or.inl ⟨hA, Or.inr hB⟩
    · tauto

/-- The confirmation-regex search succeeds exactly when some confirmation
phrase is a case-insensitive substring of the text. -/
theorem confSearch_isSome_iff (l : List Char) :
    (reSearch confirmationRe l).isSome = true ↔
      ∃ p ∈ confirmationPhraseList, p.data <:+: l.map Char.toLower := by
  unfold reSearch
  rw [scanFrom_isSome_iff]
  constructor
  · rintro ⟨d, _, hsome⟩
    have hsome' : (mtch l confirmationRe (0 + d) []
        (fun j c => some ⟨0 + d, j, c⟩)).isSome = true := hsome
    rcases (conf_attempt_iff l (0 + d) [] (fun j c => some ⟨0 + d, j, c⟩)
        (fun _ _ => rfl)).1 hsome' with h | h | h | h | h | h | h
    · exact ⟨"thank you for applying", by simp [confirmationPhraseList],
        (exists_prefixCI_iff_substr _ l (by decide)).1 ⟨0 + d, h⟩⟩
    · exact ⟨"thank you for your application", by simp [confirmationPhraseList],
        (exists_prefixCI_iff_substr _ l (by decide)).1 ⟨0 + d, h⟩⟩
    · exact ⟨"we have received your application", by simp [confirmationPhraseList],
        (exists_prefixCI_iff_substr _ l (by decide)).1 ⟨0 + d, h⟩⟩
    · exact ⟨"application received", by simp [confirmationPhraseList],
        (exists_prefixCI_iff_substr _ l (by decide)).1 ⟨0 + d, h⟩⟩
    · exact ⟨"your submission has been received", by simp [confirmationPhraseList],
        (exists_prefixCI_iff_substr _ l (by decide)).1 ⟨0 + d, h⟩⟩
    · exact ⟨"application confirmation", by simp [confirmationPhraseList],
        (exists_prefixCI_iff_substr _ l (by decide)).1 ⟨0 + d, h⟩⟩
    · exact ⟨"thank you for submitting your application",
        by simp [confirmationPhraseList],
        (exists_prefixCI_iff_substr _ l (by decide)).1 ⟨0 + d, h⟩⟩
  · rintro ⟨p, hp, hinf⟩
    have hpne := conf_phrases_ne_nil p hp
    obtain ⟨j, hpre⟩ := (exists_prefixCI_iff_substr p.data l hpne).2 hinf
    have hjl : j < l.length := prefixCI_pos_lt p.data l j hpne hpre
    have hpre' : prefixCI p.data (l.drop (0 + j)) = true := by
      rwa [Nat.zero_add]
    refine ⟨j, by omega, (conf_attempt_iff l (0 + j) []
      (fun j2 c => some ⟨0 + j, j2, c⟩) (fun _ _ => rfl)).2 ?_⟩
    fin_cases hp <;> tauto

/-- The truthiness-guarded confirmation test on a string equals the
substring criterion. -/
theorem conf_guarded_str_iff (s : String) :
    (pyTruthyStr s && (reSearch confirmationRe s.data).isSome) = true ↔
      ∃ p ∈ confirmationPhraseList, p.data <:+: s.data.map Char.toLower := by
  by_cases hs : s.data.isEmpty = true
  · have hnil : s.data = [] := by simpa using hs
    have hfalse : pyTruthyStr s = false := by
      unfold pyTruthyStr
      rw [hs]
      rfl
    rw [hfalse]
    simp only [Bool.false_and, Bool.false_eq_true, false_iff]
    rintro ⟨p, hp, hinf⟩
    rw [hnil] at hinf
    exact conf_phrases_ne_nil p hp (List.eq_nil_of_infix_nil (by simpa using hinf))
  · have htrue : pyTruthyStr s = true := by
      unfold pyTruthyStr
      simp [hs]
    rw [htrue, Bool.true_and]
    exact confSearch_isSome_iff s.data

/-- The guarded confirmation test on an optional string equals the
substring criterion on a present value. -/
theorem conf_guarded_opt_iff (x : Option String) :
    (truthyOpt x && (reSearch confirmationRe ((x.getD "").data)).isSome) = true ↔
      ∃ s, x = some s ∧
        ∃ p ∈ confirmationPhraseList, p.data <:+: s.data.map Char.toLower := by
  cases x with
  | none => simp [truthyOpt]
  | some s =>
    rw [show truthyOpt (some s) = pyTruthyStr s from rfl, Option.getD_some,
      conf_guarded_str_iff]
    simp

/-- C8: `is_application_email` returns true iff one of the fixed confirmation
phrases occurs, case-insensitively and as an unanchored substring, in the
subject or in the body; an absent or empty subject or body contributes no
match and causes no error, and with both absent or empty the result is
false.  The same criterion characterizes `parse_email_text`'s
`is_application` flag. -/
theorem c8_classifier_substring :
    (∀ subject body : Option String,
      is_application_email subject body = true ↔
        ((∃ s, subject = some s ∧
            ∃ p ∈ confirmationPhraseList, p.data <:+: s.data.map Char.toLower) ∨
         (∃ b, body = some b ∧
            ∃ p ∈ confirmationPhraseList, p.data <:+: b.data.map Char.toLower)))
    ∧ (∀ subject body : String,
      (parse_email_text subject body).is_application = true ↔
        ((∃ p ∈ confirmationPhraseList, p.data <:+: subject.data.map Char.toLower) ∨
         (∃ p ∈ confirmationPhraseList, p.data <:+: body.data.map Char.toLower)))
    ∧ is_application_email none none = false
    ∧ is_application_email (some "") (some "") = false := by
  refine ⟨?_, ?_, rfl, rfl⟩
  · intro subject body
    unfold is_application_email
    simp only [Bool.or_eq_true]
    rw [conf_guarded_opt_iff, conf_guarded_opt_iff]
  · intro subject body
    rw [parse_email_text_is_application]
    simp only [Bool.or_eq_true]
    rw [conf_guarded_str_iff, conf_guarded_str_iff]

/-- Witness for C8 at a concrete input: the phrase `application received`
occurs case-insensitively inside the subject, so the classifier fires. -/
theorem c8_witness :
    is_application_email (some "Re: Application Received!") (some "") = true :=
  (c8_classifier_substring.1 (some "Re: Application Received!") (some "")).2
    (Or.inl ⟨"Re: Application Received!", rfl,
      "application received", by decide, by decide⟩)
